import Mathlib

/-!
Shallow embedding of `src/watchdog/main.go` (the faas watchdog: an
HTTP-to-process invocation shim).

Modelling conventions:
* Byte sequences (`[]byte`) are `List Nat` (each element a byte value).
* `http.Request` keeps only the fields the core reads: method, header
  multimap, raw query, and body.  The body is `Option (List Nat × Option
  String)`: `none` is a nil `r.Body` interface; `some (bs, e)` is a reader
  that delivers the bytes `bs` and then reports the optional read error `e`.
* Go's `http.Header` maps each canonical header name to a non-empty value
  slice; a `HeaderEntry` therefore carries the name, the first value
  (`v[0]` in the source) and the remaining values.  Go map iteration order
  is randomized, so every function that ranges over the header map takes an
  explicit iteration order `iter : List HeaderEntry` (one possible
  enumeration of the map, i.e. a permutation of its entries).
* The I/O behaviour of `pipeRequest` is recorded as a trace of `Event`s in
  program order (for the two joined goroutines, one linearization: the
  feeder's stdin events before the drainer's spawn; no claim below depends
  on their relative order).  External collaborators are parameters:
  `marshalFn` for `types.MarshalRequest` (returns a result and an optional
  error, like the Go call), `environ` for `os.Environ()`, `childOut` and
  `childErr` for what `targetCmd.CombinedOutput()` returned, and
  `elapsedMicros` for the measured wall-clock duration in microseconds.
* Runtime panics are modelled by `Option`: a function that can panic
  returns `none` on the panicking input.
-/

/-- One entry of Go's `http.Header` map: canonical name, first value
(`v[0]` in the source — `net/http` never stores an empty value slice),
and any further values of a repeated header. -/
structure HeaderEntry where
  name : String
  value : String
  extra : List String
deriving DecidableEq

/-- The part of `url.URL` the watchdog reads. -/
structure ReqURL where
  rawQuery : String
deriving DecidableEq

/-- The part of `http.Request` the watchdog reads.  `body = none` models a
nil `r.Body` interface; `some (bs, e)` a reader delivering bytes `bs` with
optional read error `e`. -/
structure Request where
  method : String
  header : List HeaderEntry
  url : ReqURL
  body : Option (List Nat × Option String)
deriving DecidableEq

/-- `WatchdogConfig` as consumed by `main.go` (fields read by the core). -/
structure WatchdogConfig where
  faasProcess : String
  readTimeout : Nat
  writeTimeout : Nat
  marshalRequest : Bool
  cgiHeaders : Bool
  debugHeaders : Bool
  writeDebug : Bool
  suppressLock : Bool
  contentType : String
deriving DecidableEq

/-- Observable actions of one request handling, in program order. -/
inductive Event where
  | stdinOpen : Event
  | stdinWrite : List Nat → Event
  | stdinClose : Event
  | bodyClose : Event
  | spawnChild : Event
  | setEnv : List String → Event
  | logHeaderDump : String → Event
  | logLine : String → Event
  | logStdout : List Nat → Event
  | setHeader : String → String → Event
  | writeStatus : Nat → Event
  | writeBody : List Nat → Event
deriving DecidableEq

/-- `[]byte(s)`: the bytes of a Go string, modelled as the code points of
its characters (identical to the UTF-8 bytes for the ASCII texts this
program produces). -/
def strBytes (s : String) : List Nat :=
  s.data.map Char.toNat

/-- Left-pad the decimal digits of `n` with zeros to width 6. -/
def pad6 (n : Nat) : String :=
  let s := toString n
  String.mk (List.replicate (6 - s.length) '0') ++ s

/-- `fmt.Sprintf("%f", seconds)` for an elapsed time of `micros`
microseconds: Go's `%f` prints fixed-point with six fractional digits. -/
def sprintfF (micros : Nat) : String :=
  toString (micros / 1000000) ++ "." ++ pad6 (micros % 1000000)

/-- `getAdditionalEnvs` (main.go lines 142-159).  `environ` stands for
`os.Environ()`; `iter` is the order in which Go's randomized map iteration
enumerates `r.Header` on this run. -/
def getAdditionalEnvs (environ : List String) (config : WatchdogConfig)
    (iter : List HeaderEntry) (r : Request) (method : String) : List String :=
  if config.cgiHeaders then
    let envs := environ
    let envs := envs ++ iter.map (fun kv => "Http_" ++ kv.name ++ "=" ++ kv.value)
    let envs := envs ++ ["Http_Method=" ++ method]
    if 0 < r.url.rawQuery.length then
      envs ++ ["Http_Query=" ++ r.url.rawQuery]
    else
      envs
  else
    []

/-- The environment projector as the spec describes it (§4.1): disabled ⇒
empty sequence; enabled ⇒ the invoking process's full environment, then one
`Http_<HeaderName>=<first value>` entry per inbound header in the run's
iteration order, then `Http_Method=<method>`, then `Http_Query=<raw query>`
only if the raw query string is non-empty. -/
def envProjectorSpec (environ : List String) (config : WatchdogConfig)
    (iter : List HeaderEntry) (r : Request) (method : String) : List String :=
  if config.cgiHeaders = false then []
  else
    environ
      ++ iter.map (fun kv => "Http_" ++ kv.name ++ "=" ++ kv.value)
      ++ ["Http_Method=" ++ method]
      ++ (if r.url.rawQuery ≠ "" then ["Http_Query=" ++ r.url.rawQuery] else [])

/-- `ioutil.ReadAll(r.Body)`.  On a nil reader interface the call
dereferences nil and panics (`none`); otherwise it yields the bytes the
reader delivered together with the reader's optional error. -/
def ioutilReadAll : Option (List Nat × Option String) → Option (List Nat × Option String)
  | none => none
  | some br => some br

/-- `buildFunctionInput` (main.go lines 21-39).  `marshalFn` stands for
`types.MarshalRequest` and, like the Go call, returns a result together
with an optional error.  The read error of `ioutil.ReadAll` is discarded
(`requestBytes, _ = ...` in the source); `none` models the runtime panic
of `ReadAll` on a nil body. -/
def buildFunctionInput
    (marshalFn : List Nat → List HeaderEntry → List Nat × Option String)
    (config : WatchdogConfig) (r : Request) : Option (List Nat × Option String) :=
  match ioutilReadAll r.body with
  | none => none
  | some (requestBytes, _) =>
      if config.marshalRequest then
        some (marshalFn requestBytes r.header)
      else
        some (requestBytes, none)

/-- `r.Header.Get(k)`: the first value stored under the canonical key `k`,
or the empty string when the header is absent. -/
def headerGet (hs : List HeaderEntry) (k : String) : String :=
  match hs.find? (fun kv => kv.name == k) with
  | some kv => kv.value
  | none => ""

/-- The `Content-Type` response-header assignment of the success path
(main.go lines 119-128): the configured override when non-empty, else the
caller's `Content-Type` when present, else no assignment. -/
def contentTypeEvents (config : WatchdogConfig) (r : Request) : List Event :=
  if 0 < config.contentType.length then
    [Event.setHeader "Content-Type" config.contentType]
  else
    let clientContentType := headerGet r.header "Content-Type"
    if 0 < clientContentType.length then
      [Event.setHeader "Content-Type" clientContentType]
    else
      []

/-- Events of `pipeRequest` up to and including `targetCmd.StdinPipe()`
(main.go lines 52-64): the optional inbound header dump, the `Env`
assignment when the projection is non-empty, and the opening of the
child's stdin pipe — which happens on every run, before the method's
body-handling is inspected. -/
def preEvents (environ : List String) (config : WatchdogConfig)
    (iter : List HeaderEntry) (r : Request) (method : String) : List Event :=
  (if config.debugHeaders then [Event.logHeaderDump "in"] else [])
    ++ (if 0 < (getAdditionalEnvs environ config iter r method).length then
          [Event.setEnv (getAdditionalEnvs environ config iter r method)]
        else [])
    ++ [Event.stdinOpen]

/-- Events of `pipeRequest` after `wg.Wait()` (main.go lines 106-139).
`childErr = some e` is a failed `CombinedOutput` (start failure or
non-zero exit); the success path logs the output when `writeDebug` is on,
negotiates `Content-Type`, sets `X-Duration-Seconds`, writes status 200
and the captured bytes, then optionally dumps the outbound headers. -/
def postJoin (config : WatchdogConfig) (r : Request) (childOut : List Nat)
    (childErr : Option String) (elapsedMicros : Nat) : List Event :=
  match childErr with
  | some e =>
      (if config.writeDebug then [Event.logLine e] else [])
        ++ [Event.writeStatus 500, Event.writeBody (strBytes e)]
  | none =>
      (if config.writeDebug then [Event.logStdout childOut] else [])
        ++ contentTypeEvents config r
        ++ [Event.setHeader "X-Duration-Seconds" (sprintfF elapsedMicros),
            Event.writeStatus 200, Event.writeBody childOut]
        ++ (if config.debugHeaders then [Event.logHeaderDump "out"] else [])

/-- `pipeRequest` (main.go lines 47-140) as an event trace.  `none` models
a runtime panic (nil-body `ReadAll`).  With a body: materialize the input
(the deferred `r.Body.Close()` fires when `buildFunctionInput` returns);
an encoding error short-circuits to a 400 response before any goroutine is
started; otherwise the feeder goroutine writes the materialized bytes to
the child's stdin and closes it while the drainer runs the child to
completion, and the join is followed by `postJoin`.  Without a body the
feeder is skipped entirely: stdin is neither written nor closed. -/
def pipeRequest (environ : List String)
    (marshalFn : List Nat → List HeaderEntry → List Nat × Option String)
    (iter : List HeaderEntry) (childOut : List Nat) (childErr : Option String)
    (elapsedMicros : Nat) (config : WatchdogConfig) (r : Request)
    (method : String) (hasBody : Bool) : Option (List Event) :=
  if hasBody then
    match buildFunctionInput marshalFn config r with
    | none => none
    | some (_requestBody, some buildInputErr) =>
        some (preEvents environ config iter r method
                ++ [Event.bodyClose,
                    Event.writeStatus 400,
                    Event.writeBody (strBytes buildInputErr)])
    | some (requestBody, none) =>
        some (preEvents environ config iter r method
                ++ [Event.bodyClose,
                    Event.stdinWrite requestBody, Event.stdinClose,
                    Event.spawnChild]
                ++ postJoin config r childOut childErr elapsedMicros)
  else
    some (preEvents environ config iter r method
            ++ [Event.spawnChild]
            ++ postJoin config r childOut childErr elapsedMicros)

/-- The handler returned by `makeRequestHandler` (main.go lines 161-180):
POST, PUT, DELETE and UPDATE invoke `pipeRequest` with a body, GET without
one, and every other method is answered 405 with nothing else invoked. -/
def makeRequestHandler (environ : List String)
    (marshalFn : List Nat → List HeaderEntry → List Nat × Option String)
    (iter : List HeaderEntry) (childOut : List Nat) (childErr : Option String)
    (elapsedMicros : Nat) (config : WatchdogConfig) (r : Request) :
    Option (List Event) :=
  if r.method = "POST" ∨ r.method = "PUT" ∨ r.method = "DELETE" ∨ r.method = "UPDATE" then
    pipeRequest environ marshalFn iter childOut childErr elapsedMicros config r r.method true
  else if r.method = "GET" then
    pipeRequest environ marshalFn iter childOut childErr elapsedMicros config r r.method false
  else
    some [Event.writeStatus 405]

/-- Events that form the HTTP response (header assignments, status line,
body bytes). -/
def isResponseEvent : Event → Bool
  | Event.setHeader _ _ => true
  | Event.writeStatus _ => true
  | Event.writeBody _ => true
  | _ => false

/-- Is this event an assignment of the `X-Duration-Seconds` header? -/
def isDurationHeader : Event → Bool
  | Event.setHeader k _ => k == "X-Duration-Seconds"
  | _ => false

/-- Is this event a write to the child's standard input? -/
def isStdinWrite : Event → Bool
  | Event.stdinWrite _ => true
  | _ => false

/-- The sequence of byte chunks written to the HTTP response body. -/
def bodyWrites (tr : List Event) : List (List Nat) :=
  tr.filterMap fun e => match e with | Event.writeBody b => some b | _ => none

/-- The sequence of status codes written to the HTTP response. -/
def statusWrites (tr : List Event) : List Nat :=
  tr.filterMap fun e => match e with | Event.writeStatus s => some s | _ => none

/-- A child process that reads its standard input to end-of-file can only
terminate if every write end of the stdin pipe is closed.  `os/exec`
releases the parent's write end only after `Wait` has seen the child exit,
so before the join the write end is closed exactly when the handler's own
code closed it: once the handler has opened the pipe, such a child can
complete only if the trace also closes the pipe. -/
def stdinBlockedChildCanComplete (tr : List Event) : Prop :=
  Event.stdinOpen ∈ tr → Event.stdinClose ∈ tr

/-- A `types.MarshalRequest` stand-in that succeeds with the raw bytes. -/
def idMarshal : List Nat → List HeaderEntry → List Nat × Option String :=
  fun bs _ => (bs, none)

/-- A `types.MarshalRequest` stand-in that reports an encoding failure. -/
def badMarshal : List Nat → List HeaderEntry → List Nat × Option String :=
  fun _ _ => ([], some "unsupported value")

/-- A configuration with every flag off. -/
def plainConfig : WatchdogConfig :=
  { faasProcess := "cat", readTimeout := 5, writeTimeout := 5,
    marshalRequest := false, cgiHeaders := false, debugHeaders := false,
    writeDebug := false, suppressLock := false, contentType := "" }

/-- `plainConfig` with cgi-headers enabled. -/
def cgiConfig : WatchdogConfig := { plainConfig with cgiHeaders := true }

/-- `plainConfig` with marshal-request enabled. -/
def marshalConfig : WatchdogConfig := { plainConfig with marshalRequest := true }

/-- `plainConfig` with write-debug enabled. -/
def dbgConfig : WatchdogConfig := { plainConfig with writeDebug := true }

/-- A headerless, queryless request with method `m` and a two-byte body. -/
def mkReq (m : String) : Request :=
  { method := m, header := [], url := { rawQuery := "" },
    body := some ([104, 105], none) }

/-- A POST request whose `Body` interface is nil. -/
def nilBodyReq : Request :=
  { method := "POST", header := [], url := { rawQuery := "" }, body := none }

/-- A GET request carrying two distinct headers. -/
def twoHeaderReq : Request :=
  { method := "GET",
    header := [{ name := "Accept", value := "1", extra := [] },
               { name := "Host", value := "2", extra := [] }],
    url := { rawQuery := "" }, body := none }

/-- The other iteration order Go's randomized map range can produce for
`twoHeaderReq.header`. -/
def twoHeaderSwapped : List HeaderEntry :=
  [{ name := "Host", value := "2", extra := [] },
   { name := "Accept", value := "1", extra := [] }]

/-- The trace of a body-carrying run whose envelope encoding fails. -/
def encFailRun : List Event :=
  (pipeRequest [] badMarshal [] [] none 0 marshalConfig (mkReq "POST") "POST" true).getD []

/- ------------------------------------------------------------------ -/
/- Shared lemmas                                                       -/
/- ------------------------------------------------------------------ -/

theorem string_length_pos_iff (s : String) : 0 < s.length ↔ s ≠ "" := by
  cases s with
  | mk data => cases data <;> simp [String.length, String.ext_iff]

/-- The source projector agrees with the spec-worded projector on every
input (shared by several claims). -/
theorem getAdditionalEnvs_eq_spec (environ : List String) (config : WatchdogConfig)
    (iter : List HeaderEntry) (r : Request) (method : String) :
    getAdditionalEnvs environ config iter r method
      = envProjectorSpec environ config iter r method := by
  by_cases hc : config.cgiHeaders = true
  · by_cases hq : r.url.rawQuery = ""
    · simp [getAdditionalEnvs, envProjectorSpec, hc, hq, string_length_pos_iff,
        List.append_assoc]
    · simp [getAdditionalEnvs, envProjectorSpec, hc, hq, string_length_pos_iff,
        List.append_assoc]
  · simp only [Bool.not_eq_true] at hc
    simp [getAdditionalEnvs, envProjectorSpec, hc]

/-- Every event emitted before the method dispatch is one of the header
dump, the environment assignment, or the stdin-pipe opening. -/
theorem mem_preEvents {environ : List String} {config : WatchdogConfig}
    {iter : List HeaderEntry} {r : Request} {method : String} {e : Event}
    (h : e ∈ preEvents environ config iter r method) :
    e = Event.logHeaderDump "in" ∨ (∃ l, e = Event.setEnv l) ∨ e = Event.stdinOpen := by
  unfold preEvents at h
  rcases List.mem_append.1 h with h1 | h1
  · rcases List.mem_append.1 h1 with h2 | h2
    · left
      revert h2
      split
      · intro h2
        simpa using h2
      · intro h2
        simp at h2
    · right
      left
      revert h2
      split
      · intro h2
        exact ⟨_, by simpa using h2⟩
      · intro h2
        simp at h2
  · right
    right
    simpa using h1

theorem statusWrites_preEvents (environ : List String) (config : WatchdogConfig)
    (iter : List HeaderEntry) (r : Request) (method : String) :
    statusWrites (preEvents environ config iter r method) = [] := by
  unfold preEvents statusWrites
  by_cases hd : config.debugHeaders = true <;>
    by_cases he : 0 < (getAdditionalEnvs environ config iter r method).length <;>
      simp [hd, he]

theorem bodyWrites_preEvents (environ : List String) (config : WatchdogConfig)
    (iter : List HeaderEntry) (r : Request) (method : String) :
    bodyWrites (preEvents environ config iter r method) = [] := by
  unfold preEvents bodyWrites
  by_cases hd : config.debugHeaders = true <;>
    by_cases he : 0 < (getAdditionalEnvs environ config iter r method).length <;>
      simp [hd, he]

theorem preEvents_all_nonresponse (environ : List String) (config : WatchdogConfig)
    (iter : List HeaderEntry) (r : Request) (method : String) :
    (preEvents environ config iter r method).all (fun ev => !(isResponseEvent ev)) = true := by
  unfold preEvents
  by_cases hd : config.debugHeaders = true <;>
    by_cases he : 0 < (getAdditionalEnvs environ config iter r method).length <;>
      simp [hd, he, isResponseEvent]

/-- The content-type negotiation only ever assigns a header. -/
theorem mem_contentTypeEvents {config : WatchdogConfig} {r : Request} {e : Event}
    (h : e ∈ contentTypeEvents config r) : ∃ k v, e = Event.setHeader k v := by
  unfold contentTypeEvents at h
  by_cases h1 : 0 < config.contentType.length <;>
    by_cases h2 : 0 < (headerGet r.header "Content-Type").length <;>
      simp [h1, h2] at h <;> exact ⟨_, _, h⟩

/-- The only status written after a failed join is 500, and after a
successful join 200. -/
theorem writeStatus_mem_postJoin {config : WatchdogConfig} {r : Request}
    {childOut : List Nat} {childErr : Option String} {elapsedMicros : Nat} {n : Nat}
    (h : Event.writeStatus n ∈ postJoin config r childOut childErr elapsedMicros) :
    (childErr = none ∧ n = 200) ∨ (∃ e, childErr = some e ∧ n = 500) := by
  cases childErr with
  | some e =>
      right
      refine ⟨e, rfl, ?_⟩
      unfold postJoin at h
      rcases List.mem_append.1 h with h1 | h1
      · revert h1
        split
        · intro h1
          simp at h1
        · intro h1
          simp at h1
      · simpa using h1
  | none =>
      left
      refine ⟨rfl, ?_⟩
      unfold postJoin at h
      rcases List.mem_append.1 h with h1 | h1
      · rcases List.mem_append.1 h1 with h2 | h2
        · rcases List.mem_append.1 h2 with h3 | h3
          · revert h3
            split
            · intro h3
              simp at h3
            · intro h3
              simp at h3
          · rcases mem_contentTypeEvents h3 with ⟨k, v, hx⟩
            simp at hx
        · simpa using h2
      · revert h1
        split
        · intro h1
          simp at h1
        · intro h1
          simp at h1

theorem stdinOpen_mem_preEvents (environ : List String) (config : WatchdogConfig)
    (iter : List HeaderEntry) (r : Request) (method : String) :
    Event.stdinOpen ∈ preEvents environ config iter r method := by
  unfold preEvents
  simp

theorem statusWrites_append (l1 l2 : List Event) :
    statusWrites (l1 ++ l2) = statusWrites l1 ++ statusWrites l2 :=
  List.filterMap_append l1 l2 _

theorem bodyWrites_append (l1 l2 : List Event) :
    bodyWrites (l1 ++ l2) = bodyWrites l1 ++ bodyWrites l2 :=
  List.filterMap_append l1 l2 _

theorem statusWrites_postJoin_failure (config : WatchdogConfig) (r : Request)
    (childOut : List Nat) (e : String) (elapsedMicros : Nat) :
    statusWrites (postJoin config r childOut (some e) elapsedMicros) = [500] := by
  unfold postJoin statusWrites
  by_cases hw : config.writeDebug = true <;> simp [hw]

theorem bodyWrites_postJoin_failure (config : WatchdogConfig) (r : Request)
    (childOut : List Nat) (e : String) (elapsedMicros : Nat) :
    bodyWrites (postJoin config r childOut (some e) elapsedMicros) = [strBytes e] := by
  unfold postJoin bodyWrites
  by_cases hw : config.writeDebug = true <;> simp [hw]

theorem duration_mem_postJoin_success (config : WatchdogConfig) (r : Request)
    (childOut : List Nat) (elapsedMicros : Nat) :
    Event.setHeader "X-Duration-Seconds" (sprintfF elapsedMicros)
      ∈ postJoin config r childOut none elapsedMicros := by
  unfold postJoin
  refine List.mem_append.2 (Or.inl (List.mem_append.2 (Or.inr ?_)))
  simp

/-- Case analysis on every trace `pipeRequest` can return: the 400
short-circuit of a failed materialization, the body-carrying run, or the
bodiless run. -/
theorem pipeRequest_cases (environ : List String)
    (marshalFn : List Nat → List HeaderEntry → List Nat × Option String)
    (iter : List HeaderEntry) (childOut : List Nat) (childErr : Option String)
    (elapsedMicros : Nat) (config : WatchdogConfig) (r : Request)
    (method : String) (hasBody : Bool) (tr : List Event)
    (h : pipeRequest environ marshalFn iter childOut childErr elapsedMicros config r method hasBody
          = some tr) :
    (∃ rb e, hasBody = true
        ∧ buildFunctionInput marshalFn config r = some (rb, some e)
        ∧ tr = preEvents environ config iter r method
              ++ [Event.bodyClose, Event.writeStatus 400, Event.writeBody (strBytes e)])
    ∨ (∃ rb, hasBody = true
        ∧ buildFunctionInput marshalFn config r = some (rb, none)
        ∧ tr = preEvents environ config iter r method
              ++ [Event.bodyClose, Event.stdinWrite rb, Event.stdinClose, Event.spawnChild]
              ++ postJoin config r childOut childErr elapsedMicros)
    ∨ (hasBody = false
        ∧ tr = preEvents environ config iter r method
              ++ [Event.spawnChild]
              ++ postJoin config r childOut childErr elapsedMicros) := by
  unfold pipeRequest at h
  cases hasBody with
  | true =>
      rw [if_pos rfl] at h
      split at h
      · exact absurd h (by simp)
      · rename_i rb e heq
        injection h with h2
        exact Or.inl ⟨rb, e, rfl, heq, h2.symm⟩
      · rename_i rb heq
        injection h with h2
        exact Or.inr (Or.inl ⟨rb, rfl, heq, h2.symm⟩)
  | false =>
      rw [if_neg (by simp)] at h
      injection h with h2
      exact Or.inr (Or.inr ⟨rfl, h2.symm⟩)

/-- `takeWhile` passes over a block that satisfies the predicate. -/
theorem takeWhile_append_of_all {p : Event → Bool} {a : List Event} (l : List Event)
    (ha : a.all p = true) : (a ++ l).takeWhile p = a ++ l.takeWhile p := by
  induction a with
  | nil => simp
  | cons y ys ih =>
      rw [List.all_cons, Bool.and_eq_true] at ha
      rw [List.cons_append, List.takeWhile_cons, ha.1, ih ha.2]
      simp

/- ------------------------------------------------------------------ -/
/- Claims                                                              -/
/- ------------------------------------------------------------------ -/

/-- C7: with cgi-headers disabled the environment projector returns an
empty sequence; with it enabled it returns the invoking process's full
environment, then one `Http_<HeaderName>=<first value>` entry per inbound
header (the run's map iteration order `iter` ranges over the header
entries, each contributing its first value), then `Http_Method=<method>`,
and `Http_Query=<raw query>` exactly when the raw query string is
non-empty — the spec's wording is `envProjectorSpec`. -/
theorem env_projection_matches_spec (environ : List String) (config : WatchdogConfig)
    (iter : List HeaderEntry) (r : Request) (method : String) :
    getAdditionalEnvs environ config iter r method
      = envProjectorSpec environ config iter r method :=
  getAdditionalEnvs_eq_spec environ config iter r method

/-- C9: the error `ioutil.ReadAll` reports while reading the body is
silently discarded (`requestBytes, _ = ...`): the materializer proceeds
with whatever bytes were delivered, and with marshal-request disabled
`buildFunctionInput` returns them with no error, whatever the read error
was. -/
theorem buildFunctionInput_discards_read_error
    (marshalFn : List Nat → List HeaderEntry → List Nat × Option String)
    (config : WatchdogConfig) (r : Request) (bs : List Nat) (re : Option String)
    (hm : config.marshalRequest = false) (hb : r.body = some (bs, re)) :
    buildFunctionInput marshalFn config r = some (bs, none) := by
  unfold buildFunctionInput ioutilReadAll
  rw [hb]
  simp [hm]

/-- Witness for C9: a body whose reader reports an error still
materializes to its bytes with no error. -/
theorem buildFunctionInput_discards_read_error_witness :
    buildFunctionInput idMarshal plainConfig
        { method := "POST", header := [], url := { rawQuery := "" },
          body := some ([7, 8], some "unexpected EOF") }
      = some ([7, 8], none) :=
  buildFunctionInput_discards_read_error idMarshal plainConfig
    { method := "POST", header := [], url := { rawQuery := "" },
      body := some ([7, 8], some "unexpected EOF") }
    [7, 8] (some "unexpected EOF") rfl rfl

/-- C3 (code bug): an empty body does materialize to empty bytes with no
error, but on a request with a nil body object the unguarded
`ioutil.ReadAll(r.Body)` dereferences a nil interface and panics
(modelled as `none`) — the code crashes exactly where the claim says it
never does. -/
theorem buildFunctionInput_nil_body_panics :
    buildFunctionInput idMarshal plainConfig nilBodyReq = none
    ∧ buildFunctionInput idMarshal plainConfig
        { nilBodyReq with body := some ([], none) } = some ([], none) :=
  ⟨rfl, rfl⟩

/-- C4 counterexample: with cgi-headers enabled, two runs on the same
request and method whose randomized map iterations enumerate the two
headers in opposite orders produce different entry sequences — the
claimed run-to-run determinism of the projector is false. -/
theorem env_projection_order_not_deterministic :
    cgiConfig.cgiHeaders = true
    ∧ List.Perm twoHeaderReq.header twoHeaderReq.header
    ∧ List.Perm twoHeaderSwapped twoHeaderReq.header
    ∧ getAdditionalEnvs [] cgiConfig twoHeaderReq.header twoHeaderReq "GET"
        ≠ getAdditionalEnvs [] cgiConfig twoHeaderSwapped twoHeaderReq "GET" :=
  ⟨rfl, List.Perm.refl _, by decide, by decide⟩

/-- C4 corrected: two runs of the projector on the same request and
method (cgi-headers on or off) produce permutations of each other, and
each run's output has the fixed structure of `envProjectorSpec`: base
environment, then the header entries in that run's iteration order, then
`Http_Method`, then `Http_Query` — only the header order may differ
between runs. -/
theorem env_projection_deterministic_up_to_header_order
    (environ : List String) (config : WatchdogConfig) (r : Request) (method : String)
    (iter1 iter2 : List HeaderEntry)
    (h1 : List.Perm iter1 r.header) (h2 : List.Perm iter2 r.header) :
    List.Perm (getAdditionalEnvs environ config iter1 r method)
        (getAdditionalEnvs environ config iter2 r method)
    ∧ getAdditionalEnvs environ config iter1 r method
        = envProjectorSpec environ config iter1 r method
    ∧ getAdditionalEnvs environ config iter2 r method
        = envProjectorSpec environ config iter2 r method := by
  refine ⟨?_, getAdditionalEnvs_eq_spec _ _ _ _ _, getAdditionalEnvs_eq_spec _ _ _ _ _⟩
  rw [getAdditionalEnvs_eq_spec, getAdditionalEnvs_eq_spec]
  unfold envProjectorSpec
  have hmap : List.Perm (iter1.map fun kv => "Http_" ++ kv.name ++ "=" ++ kv.value)
      (iter2.map fun kv => "Http_" ++ kv.name ++ "=" ++ kv.value) :=
    (h1.trans h2.symm).map _
  by_cases hc : config.cgiHeaders = false
  · rw [if_pos hc, if_pos hc]
  · rw [if_neg hc, if_neg hc]
    exact ((hmap.append_left environ).append_right _).append_right _

/-- Witness for the corrected C4 at the concrete two-header request. -/
theorem env_projection_deterministic_up_to_header_order_witness :
    List.Perm (getAdditionalEnvs [] cgiConfig twoHeaderReq.header twoHeaderReq "GET")
        (getAdditionalEnvs [] cgiConfig twoHeaderSwapped twoHeaderReq "GET") :=
  (env_projection_deterministic_up_to_header_order [] cgiConfig twoHeaderReq "GET"
      twoHeaderReq.header twoHeaderSwapped (List.Perm.refl _) (by decide)).1

/-- C8: the entry point classifies POST, PUT, DELETE and UPDATE as
body-carrying, GET as bodiless, and answers any other method 405 without
invoking the process bridge or anything else. -/
theorem method_classification (environ : List String)
    (marshalFn : List Nat → List HeaderEntry → List Nat × Option String)
    (iter : List HeaderEntry) (childOut : List Nat) (childErr : Option String)
    (elapsedMicros : Nat) (config : WatchdogConfig) (r : Request) :
    ((r.method = "POST" ∨ r.method = "PUT" ∨ r.method = "DELETE" ∨ r.method = "UPDATE") →
        makeRequestHandler environ marshalFn iter childOut childErr elapsedMicros config r
          = pipeRequest environ marshalFn iter childOut childErr elapsedMicros config r r.method true)
    ∧ (r.method = "GET" →
        makeRequestHandler environ marshalFn iter childOut childErr elapsedMicros config r
          = pipeRequest environ marshalFn iter childOut childErr elapsedMicros config r r.method false)
    ∧ (r.method ∉ (["POST", "PUT", "DELETE", "UPDATE", "GET"] : List String) →
        makeRequestHandler environ marshalFn iter childOut childErr elapsedMicros config r
          = some [Event.writeStatus 405]) := by
  refine ⟨?_, ?_, ?_⟩
  · intro h
    unfold makeRequestHandler
    rw [if_pos h]
  · intro h
    have hn : ¬(r.method = "POST" ∨ r.method = "PUT" ∨ r.method = "DELETE" ∨ r.method = "UPDATE") := by
      rw [h]
      decide
    unfold makeRequestHandler
    rw [if_neg hn, if_pos h]
  · intro h
    simp only [List.mem_cons, List.not_mem_nil, or_false, not_or] at h
    obtain ⟨h1, h2, h3, h4, h5⟩ := h
    have hn : ¬(r.method = "POST" ∨ r.method = "PUT" ∨ r.method = "DELETE" ∨ r.method = "UPDATE") := by
      rintro (hx | hx | hx | hx)
      exacts [h1 hx, h2 hx, h3 hx, h4 hx]
    unfold makeRequestHandler
    rw [if_neg hn, if_neg h5]

/-- Witness for C8 at POST, GET and PATCH. -/
theorem method_classification_witness :
    makeRequestHandler [] idMarshal [] [] none 0 plainConfig (mkReq "POST")
        = pipeRequest [] idMarshal [] [] none 0 plainConfig (mkReq "POST") "POST" true
    ∧ makeRequestHandler [] idMarshal [] [] none 0 plainConfig (mkReq "GET")
        = pipeRequest [] idMarshal [] [] none 0 plainConfig (mkReq "GET") "GET" false
    ∧ makeRequestHandler [] idMarshal [] [] none 0 plainConfig (mkReq "PATCH")
        = some [Event.writeStatus 405] :=
  ⟨(method_classification [] idMarshal [] [] none 0 plainConfig (mkReq "POST")).1 (Or.inl rfl),
   (method_classification [] idMarshal [] [] none 0 plainConfig (mkReq "GET")).2.1 rfl,
   (method_classification [] idMarshal [] [] none 0 plainConfig (mkReq "PATCH")).2.2 (by decide)⟩

/-- C1 (code bug): for a GET request the process bridge indeed never
writes to the child's stdin (the feeder task is skipped), but the stdin
pipe is opened unconditionally before the method's body semantics are
inspected and the handler never closes it; `os/exec` releases the write
end only after the child has exited, so a child that blocks reading its
input to end-of-file never sees EOF and never completes — the claimed
"closed immediately or never opened" behaviour, and with it the absence
of deadlock, fails on the code. -/
theorem get_request_leaves_stdin_open :
    ∃ tr, pipeRequest [] idMarshal [] [] none 0 plainConfig (mkReq "GET") "GET" false = some tr
      ∧ tr.all (fun e => !(isStdinWrite e)) = true
      ∧ Event.stdinOpen ∈ tr
      ∧ Event.stdinClose ∉ tr
      ∧ ¬ stdinBlockedChildCanComplete tr := by
  refine ⟨_, rfl, by decide, by decide, by decide, ?_⟩
  intro hcc
  exact absurd (hcc (by decide)) (by decide)

/-- C2 counterexample: a run whose child exits non-zero produces a 500
response that carries no `X-Duration-Seconds` header at all — the header
is not on every response, only on successful ones. -/
theorem duration_header_missing_on_failure :
    ∃ tr, pipeRequest [] idMarshal [] (strBytes "boom") (some "exit status 1") 1234
            plainConfig (mkReq "GET") "GET" false = some tr
      ∧ Event.writeStatus 500 ∈ tr
      ∧ tr.all (fun e => !(isDurationHeader e)) = true :=
  ⟨_, rfl, by decide, by decide⟩

/-- C2 corrected: every successful response (status 200) carries
`X-Duration-Seconds` with the elapsed seconds formatted as Go's `%f`;
failure responses do not (see the counterexample). -/
theorem success_response_has_duration_header (environ : List String)
    (marshalFn : List Nat → List HeaderEntry → List Nat × Option String)
    (iter : List HeaderEntry) (childOut : List Nat) (childErr : Option String)
    (elapsedMicros : Nat) (config : WatchdogConfig) (r : Request)
    (method : String) (hasBody : Bool) (tr : List Event)
    (h : pipeRequest environ marshalFn iter childOut childErr elapsedMicros config r method hasBody
          = some tr)
    (h200 : Event.writeStatus 200 ∈ tr) :
    Event.setHeader "X-Duration-Seconds" (sprintfF elapsedMicros) ∈ tr := by
  rcases pipeRequest_cases environ marshalFn iter childOut childErr elapsedMicros config r
      method hasBody tr h with ⟨rb, e, hB, hbuild, htr⟩ | ⟨rb, hB, hbuild, htr⟩ | ⟨hB, htr⟩
  · subst htr
    exfalso
    rcases List.mem_append.1 h200 with h1 | h1
    · rcases mem_preEvents h1 with hx | ⟨l, hx⟩ | hx <;> simp at hx
    · simp at h1
  · subst htr
    rcases List.mem_append.1 h200 with h1 | h1
    · exfalso
      rcases List.mem_append.1 h1 with h2 | h2
      · rcases mem_preEvents h2 with hx | ⟨l, hx⟩ | hx <;> simp at hx
      · simp at h2
    · rcases writeStatus_mem_postJoin h1 with ⟨hce, _⟩ | ⟨e2, hce, habs⟩
      · subst hce
        exact List.mem_append.2 (Or.inr (duration_mem_postJoin_success config r childOut elapsedMicros))
      · simp at habs
  · subst htr
    rcases List.mem_append.1 h200 with h1 | h1
    · exfalso
      rcases List.mem_append.1 h1 with h2 | h2
      · rcases mem_preEvents h2 with hx | ⟨l, hx⟩ | hx <;> simp at hx
      · simp at h2
    · rcases writeStatus_mem_postJoin h1 with ⟨hce, _⟩ | ⟨e2, hce, habs⟩
      · subst hce
        exact List.mem_append.2 (Or.inr (duration_mem_postJoin_success config r childOut elapsedMicros))
      · simp at habs

/-- Witness for the corrected C2: a concrete successful run carries the
header with value `sprintfF 1500000 = "1.500000"`. -/
theorem success_response_has_duration_header_witness :
    Event.setHeader "X-Duration-Seconds" "1.500000"
      ∈ (pipeRequest [] idMarshal [] [50] none 1500000 plainConfig (mkReq "GET") "GET" false).getD [] :=
  success_response_has_duration_header [] idMarshal [] [50] none 1500000 plainConfig
    (mkReq "GET") "GET" false _ rfl (by decide)

/-- C5 counterexample: on the marshal-failure path of a body-carrying
request the stdin pipe created by `StdinPipe()` before materialization is
never closed — the "every opened pipe/reader is released" part of the
claim is false (the 400 response itself does happen). -/
theorem encoding_failure_leaks_stdin_pipe :
    Event.stdinOpen ∈ encFailRun
    ∧ Event.stdinClose ∉ encFailRun
    ∧ Event.writeStatus 400 ∈ encFailRun := by
  refine ⟨by decide, by decide, by decide⟩

/-- C5 corrected: when the envelope encoding fails on a body-carrying
request the handler writes exactly one status, 400, with the failure's
message as body, spawns no child and closes the body reader — but the
stdin pipe it already opened is not released on this path. -/
theorem encoding_failure_responds_400_no_spawn (environ : List String)
    (marshalFn : List Nat → List HeaderEntry → List Nat × Option String)
    (iter : List HeaderEntry) (childOut : List Nat) (childErr : Option String)
    (elapsedMicros : Nat) (config : WatchdogConfig) (r : Request) (method : String)
    (mres : List Nat) (e : String) (tr : List Event)
    (hbuild : buildFunctionInput marshalFn config r = some (mres, some e))
    (h : pipeRequest environ marshalFn iter childOut childErr elapsedMicros config r method true
          = some tr) :
    statusWrites tr = [400]
    ∧ Event.writeBody (strBytes e) ∈ tr
    ∧ Event.bodyClose ∈ tr
    ∧ Event.spawnChild ∉ tr
    ∧ Event.stdinOpen ∈ tr
    ∧ Event.stdinClose ∉ tr := by
  rcases pipeRequest_cases environ marshalFn iter childOut childErr elapsedMicros config r
      method true tr h with ⟨rb, e2, hB, hbuild2, htr⟩ | ⟨rb, hB, hbuild2, htr⟩ | ⟨hB, htr⟩
  · rw [hbuild] at hbuild2
    have he : e = e2 := by
      have := hbuild2
      simp at this
      exact this.2
    subst he
    subst htr
    refine ⟨?_, ?_, ?_, ?_, ?_, ?_⟩
    · rw [statusWrites_append, statusWrites_preEvents]
      simp [statusWrites]
    · exact List.mem_append.2 (Or.inr (by simp))
    · exact List.mem_append.2 (Or.inr (by simp))
    · intro hsp
      rcases List.mem_append.1 hsp with h1 | h1
      · rcases mem_preEvents h1 with hx | ⟨l, hx⟩ | hx <;> simp at hx
      · simp at h1
    · exact List.mem_append.2 (Or.inl (stdinOpen_mem_preEvents environ config iter r method))
    · intro hsc
      rcases List.mem_append.1 hsc with h1 | h1
      · rcases mem_preEvents h1 with hx | ⟨l, hx⟩ | hx <;> simp at hx
      · simp at h1
  · rw [hbuild] at hbuild2
    simp at hbuild2
  · exact absurd hB (by simp)

/-- Witness for the corrected C5 at a concrete failing marshal. -/
theorem encoding_failure_responds_400_no_spawn_witness :
    statusWrites encFailRun = [400]
    ∧ Event.writeBody (strBytes "unsupported value") ∈ encFailRun
    ∧ Event.bodyClose ∈ encFailRun
    ∧ Event.spawnChild ∉ encFailRun
    ∧ Event.stdinOpen ∈ encFailRun
    ∧ Event.stdinClose ∉ encFailRun :=
  encoding_failure_responds_400_no_spawn [] badMarshal [] [] none 0 marshalConfig
    (mkReq "POST") "POST" [] "unsupported value" _ rfl rfl

/-- C6: whenever the joined child reports failure (start failure or
non-zero exit, both surfaced as the error of `CombinedOutput`) and the run
reached the child at all, the response is exactly one status write, 500,
and the only body written is the error's description — the captured
process output is excluded from the response body. -/
theorem nonzero_exit_responds_500_with_error_only (environ : List String)
    (marshalFn : List Nat → List HeaderEntry → List Nat × Option String)
    (iter : List HeaderEntry) (childOut : List Nat) (e : String)
    (elapsedMicros : Nat) (config : WatchdogConfig) (r : Request)
    (method : String) (hasBody : Bool) (tr : List Event)
    (h : pipeRequest environ marshalFn iter childOut (some e) elapsedMicros config r method hasBody
          = some tr)
    (hspawn : Event.spawnChild ∈ tr) :
    statusWrites tr = [500] ∧ bodyWrites tr = [strBytes e] := by
  rcases pipeRequest_cases environ marshalFn iter childOut (some e) elapsedMicros config r
      method hasBody tr h with ⟨rb, e2, hB, hbuild, htr⟩ | ⟨rb, hB, hbuild, htr⟩ | ⟨hB, htr⟩
  · subst htr
    exfalso
    rcases List.mem_append.1 hspawn with h1 | h1
    · rcases mem_preEvents h1 with hx | ⟨l, hx⟩ | hx <;> simp at hx
    · simp at h1
  · subst htr
    constructor
    · rw [statusWrites_append, statusWrites_append, statusWrites_preEvents,
        statusWrites_postJoin_failure]
      simp [statusWrites]
    · rw [bodyWrites_append, bodyWrites_append, bodyWrites_preEvents,
        bodyWrites_postJoin_failure]
      simp [bodyWrites]
  · subst htr
    constructor
    · rw [statusWrites_append, statusWrites_append, statusWrites_preEvents,
        statusWrites_postJoin_failure]
      simp [statusWrites]
    · rw [bodyWrites_append, bodyWrites_append, bodyWrites_preEvents,
        bodyWrites_postJoin_failure]
      simp [bodyWrites]

/-- Witness for C6 at a concrete non-zero exit. -/
theorem nonzero_exit_responds_500_with_error_only_witness :
    statusWrites ((pipeRequest [] idMarshal [] (strBytes "boom") (some "exit status 1") 7
        plainConfig (mkReq "GET") "GET" false).getD []) = [500]
    ∧ bodyWrites ((pipeRequest [] idMarshal [] (strBytes "boom") (some "exit status 1") 7
        plainConfig (mkReq "GET") "GET" false).getD []) = [strBytes "exit status 1"] :=
  nonzero_exit_responds_500_with_error_only [] idMarshal [] (strBytes "boom") "exit status 1" 7
    plainConfig (mkReq "GET") "GET" false _ rfl (by decide)

/-- C10: with write-debug enabled, a successful invocation writes the
captured combined output to the server process's own stdout strictly
before any response-composing event (header assignment, status write or
body write) — a success-path side effect the spec only mentions for
failures. -/
theorem write_debug_success_echoes_output_first (environ : List String)
    (marshalFn : List Nat → List HeaderEntry → List Nat × Option String)
    (iter : List HeaderEntry) (childOut : List Nat)
    (elapsedMicros : Nat) (config : WatchdogConfig) (r : Request)
    (method : String) (hasBody : Bool) (tr : List Event)
    (h : pipeRequest environ marshalFn iter childOut none elapsedMicros config r method hasBody
          = some tr)
    (hdbg : config.writeDebug = true)
    (h200 : Event.writeStatus 200 ∈ tr) :
    Event.logStdout childOut ∈ tr.takeWhile (fun ev => !(isResponseEvent ev)) := by
  rcases pipeRequest_cases environ marshalFn iter childOut none elapsedMicros config r
      method hasBody tr h with ⟨rb, e, hB, hbuild, htr⟩ | ⟨rb, hB, hbuild, htr⟩ | ⟨hB, htr⟩
  · subst htr
    exfalso
    rcases List.mem_append.1 h200 with h1 | h1
    · rcases mem_preEvents h1 with hx | ⟨l, hx⟩ | hx <;> simp at hx
    · simp at h1
  · subst htr
    have hall : ((preEvents environ config iter r method
        ++ [Event.bodyClose, Event.stdinWrite rb, Event.stdinClose, Event.spawnChild]).all
          (fun ev => !(isResponseEvent ev))) = true := by
      rw [List.all_append, preEvents_all_nonresponse]
      simp [isResponseEvent]
    rw [takeWhile_append_of_all _ hall]
    refine List.mem_append.2 (Or.inr ?_)
    unfold postJoin
    rw [hdbg]
    simp only [if_pos, List.singleton_append, List.append_assoc, List.cons_append]
    rw [List.takeWhile_cons]
    simp [isResponseEvent]
  · subst htr
    have hall : ((preEvents environ config iter r method
        ++ [Event.spawnChild]).all (fun ev => !(isResponseEvent ev))) = true := by
      rw [List.all_append, preEvents_all_nonresponse]
      simp [isResponseEvent]
    rw [takeWhile_append_of_all _ hall]
    refine List.mem_append.2 (Or.inr ?_)
    unfold postJoin
    rw [hdbg]
    simp only [if_pos, List.singleton_append, List.append_assoc, List.cons_append]
    rw [List.takeWhile_cons]
    simp [isResponseEvent]

/-- Witness for C10 at a concrete write-debug success run. -/
theorem write_debug_success_echoes_output_first_witness :
    Event.logStdout [51]
      ∈ ((pipeRequest [] idMarshal [] [51] none 7 dbgConfig (mkReq "GET") "GET" false).getD
          []).takeWhile (fun ev => !(isResponseEvent ev)) :=
  write_debug_success_echoes_output_first [] idMarshal [] [51] 7 dbgConfig
    (mkReq "GET") "GET" false _ rfl rfl (by decide)
